import Mathlib

/-!
# Verification of the ultraprocesor3000 virtual processor

Shallow embedding of the C++ sources (`hardware.cpp`, `memory.cpp`,
`insctructions.cpp`, `software.cpp`, `values.hpp`) of the
`iamnovichek/ultraprocesor3000` virtual-processor simulator, together with
theorems settling the specification claims about it.

Strings from the program file are modelled as `List Char`; machine integers
are modelled as `Nat` (with explicit `% 2 ^ w` where the C++ performs
modular arithmetic) and `Int` where the C++ uses signed `int`.
-/

namespace UltraProc

/-! ## Constants (values.hpp, HardcodedValues / RegistersManager) -/

/-- `HardcodedValues::MEMORY_SIZE = 1 << 8`. -/
def MEMORY_SIZE : Nat := 256

/-- `HardcodedValues::STACK_SIZE = 16`. -/
def STACK_SIZE : Nat := 16

/-- `HardcodedValues::STACK_POINTER_SIZE = 2`. -/
def STACK_POINTER_SIZE : Nat := 2

/-- `HardcodedValues::BITS_IN_BYTE = 8`. -/
def BITS_IN_BYTE : Nat := 8

/-- `RegistersManager::PROCESSOR_REGISTER_MAX_VALUE = UINT16_MAX`. -/
def PROCESSOR_REGISTER_MAX_VALUE : Nat := 65535

/-- `RegistersManager::PROCESSOR_REGISTER_MIN_VALUE = 0`. -/
def PROCESSOR_REGISTER_MIN_VALUE : Nat := 0

/-- Shorthand for turning a string literal into the `List Char` model of a
program-file line or token. -/
def str (s : String) : List Char := s.data

/-! ## String splitting (functools::split, software.cpp)

`functools::split` tokenizes with repeated `std::getline(ss, token, delim)`.
`getline` semantics: each call reads characters up to (and consumes) the next
delimiter or end of input; a call on an already-exhausted stream fails and
ends the loop.  Hence the empty string yields no tokens, and a trailing
delimiter does not yield a trailing empty token, while doubled delimiters in
the middle do yield empty tokens. -/

/-- All delimiter-separated fields of a nonempty character stream, including a
final field after the last delimiter (this is `getline` looping on a stream
known to be nonempty). -/
def splitAll : List Char → Char → List (List Char)
  | [], _ => [[]]
  | c :: cs, d =>
    if c = d then [] :: splitAll cs d
    else
      match splitAll cs d with
      | [] => [[c]]
      | t :: ts => (c :: t) :: ts

namespace functools

/-- `functools::split` (software.cpp): `getline`-based tokenization. -/
def split (s : List Char) (d : Char) : List (List Char) :=
  match s with
  | [] => []
  | _ =>
    if s.getLast? = some d then (splitAll s d).dropLast else splitAll s d

end functools

/-! ## std::stoi model (used by the operand parser)

`Instruction::Instruction` converts a non-register token with
`static_cast<uint16_t>(stoi(token))`.  `std::stoi` (base 10) skips leading
whitespace, accepts one optional sign, then requires at least one decimal
digit; it converts the longest digit prefix and ignores trailing characters.
It throws `invalid_argument` when no digits are found and `out_of_range` when
the value does not fit in `int` (outside `[-2^31, 2^31 - 1]`). -/

/-- `isspace` in the default locale: space, tab, newline, vertical tab,
form feed, carriage return. -/
def isCppSpace (c : Char) : Bool :=
  c = ' ' || c = Char.ofNat 9 || c = Char.ofNat 10 || c = Char.ofNat 11 ||
  c = Char.ofNat 12 || c = Char.ofNat 13

/-- Numeric value of a decimal digit character. -/
def digitVal (c : Char) : Nat := c.toNat - 48

/-- Value of a list of decimal digit characters, most significant first. -/
def digitsToNat (ds : List Char) : Nat :=
  ds.foldl (fun a c => 10 * a + digitVal c) 0

/-- The two exceptions `std::stoi` can throw. -/
inductive StoiError where
  | invalidArgument
  | outOfRange
deriving DecidableEq

/-- The sign character and remainder of the post-whitespace body:
one optional leading `+` or `-`. -/
def splitSign : List Char → Bool × List Char
  | '-' :: t => (true, t)
  | '+' :: t => (false, t)
  | t => (false, t)

/-- `std::stoi` in base 10, as a total function into `Except`. -/
def cppStoi (s : List Char) : Except StoiError Int :=
  let body := (s.dropWhile isCppSpace)
  let sign := splitSign body
  let ds := sign.2.takeWhile Char.isDigit
  if ds.isEmpty then .error .invalidArgument
  else
    let mag : Int := (digitsToNat ds : Int)
    let v : Int := if sign.1 then -mag else mag
    if v < -2147483648 || 2147483647 < v then .error .outOfRange
    else .ok v

/-- `static_cast<uint16_t>` applied to a C++ `int` value: reduction modulo
`2 ^ 16` (C++ conversion to an unsigned type). -/
def toU16 (i : Int) : Nat := (i % 65536).toNat

/-! ## Opcodes and operands (instructions.hpp, insctructions.cpp) -/

/-- The `Opcode` enumeration. -/
inductive Opcode where
  | SETv | SETr | ADDv | ADDr | SUBv | SUBr
  | IFNZ | PRINT | PUSH | POP | LOAD | STORE
deriving DecidableEq

/-- The `OperandType` enumeration. -/
inductive OperandType where
  | NUMERIC
  | REGISTER
deriving DecidableEq

/-- The `Operand` struct: a type tag and the parsed 16-bit payload. -/
structure Operand where
  type : OperandType
  parsed : Nat
deriving DecidableEq

/-- The fatal conditions of the simulator (each prints a message on standard
error and calls `exit(FAILURE_EXIT_STATUS)` in the C++, or is an uncaught
`std::stoi` exception aborting the process). -/
inductive ExecError where
  | unknownOpcode
  | stoiInvalidArgument
  | stoiOutOfRange
  | stackRegionWrite
  | stackRegionRead
  | stackOverflow
  | stackUnderflow
  | invalidRegisterId
deriving DecidableEq

instance {ε α : Type} [DecidableEq ε] [DecidableEq α] : DecidableEq (Except ε α) :=
  fun a b =>
    match a, b with
    | .ok x, .ok y =>
        decidable_of_iff (x = y) ⟨fun h => by rw [h], fun h => by injection h⟩
    | .error x, .error y =>
        decidable_of_iff (x = y) ⟨fun h => by rw [h], fun h => by injection h⟩
    | .ok _, .error _ => isFalse (fun h => Except.noConfusion h)
    | .error _, .ok _ => isFalse (fun h => Except.noConfusion h)

/-- `RegistersManager::REGISTERS_SYMBOLS = {"a", "b", "c", "d"}` — a
`std::set<string>`, so iteration order is lexical. -/
def REGISTERS_SYMBOLS : List (List Char) := [['a'], ['b'], ['c'], ['d']]

/-- `OPCODES_MAP` lookup (insctructions.cpp). -/
def lookupOpcode (t : List Char) : Option Opcode :=
  if t = str "SETv" then some .SETv
  else if t = str "SETr" then some .SETr
  else if t = str "ADDv" then some .ADDv
  else if t = str "ADDr" then some .ADDr
  else if t = str "SUBv" then some .SUBv
  else if t = str "SUBr" then some .SUBr
  else if t = str "IFNZ" then some .IFNZ
  else if t = str "PRINT" then some .PRINT
  else if t = str "PUSH" then some .PUSH
  else if t = str "POP" then some .POP
  else if t = str "LOAD" then some .LOAD
  else if t = str "STORE" then some .STORE
  else none

/-- Operand classification, the loop body of `Instruction::Instruction`
(insctructions.cpp): a token that exactly matches a register symbol becomes a
`REGISTER` operand whose payload is `distance(symbols.begin(),
symbols.find(token))` — its rank in the lexically ordered symbol set —
otherwise the token is handed to `stoi` and cast to `uint16_t`. -/
def classifyToken (t : List Char) : Except ExecError Operand :=
  if t ∈ REGISTERS_SYMBOLS then
    .ok ⟨.REGISTER, REGISTERS_SYMBOLS.indexOf t⟩
  else
    match cppStoi t with
    | .error .invalidArgument => .error .stoiInvalidArgument
    | .error .outOfRange => .error .stoiOutOfRange
    | .ok i => .ok ⟨.NUMERIC, toU16 i⟩

/-- The parsed `Instruction` struct: an opcode and two optional operands
(`operands[0]`, `operands[1]`, `nullptr` modelled as `none`). -/
structure Instr where
  opcode : Opcode
  op0 : Option Operand
  op1 : Option Operand
deriving DecidableEq

/-- `Instruction::Instruction(raw)` together with `parse_opcode(raw)`
(insctructions.cpp): the first space-token is looked up in `OPCODES_MAP`
(unknown mnemonic is fatal), then up to two further tokens are classified
into operands, stopping at the end of the token list.  The executor never
parses an empty line, so the empty token list is modelled as the
unknown-opcode error. -/
def parseInstruction (raw : List Char) : Except ExecError Instr :=
  match functools.split raw ' ' with
  | [] => .error .unknownOpcode
  | opTok :: rest =>
    match lookupOpcode opTok with
    | none => .error .unknownOpcode
    | some oc =>
      match rest with
      | [] => .ok ⟨oc, none, none⟩
      | t1 :: rest1 =>
        match classifyToken t1 with
        | .error e => .error e
        | .ok o0 =>
          match rest1 with
          | [] => .ok ⟨oc, some o0, none⟩
          | t2 :: _ =>
            match classifyToken t2 with
            | .error e => .error e
            | .ok o1 => .ok ⟨oc, some o0, some o1⟩

/-! ## Registers (hardware.cpp)

`Register` holds `uint16_t register_value = 0`.  Its `+=` and `-=` operators
saturate using `functools::is_overflow` / `functools::is_underflow`
(software.cpp).  Register values are modelled as `Nat`; the C++ `uint16_t`
wraparound of `register_value += value` / `-= value` is written explicitly
as arithmetic modulo `2 ^ 16`. -/

namespace functools

/-- `functools::is_overflow` (software.cpp): `sum = uint16_t(reg + number);
return sum < reg`. -/
def is_overflow (reg number : Nat) : Bool :=
  (reg + number) % 65536 < reg

/-- `functools::is_underflow` (software.cpp): `return reg < number`. -/
def is_underflow (reg number : Nat) : Bool :=
  reg < number

end functools

namespace Register

/-- `Register::operator+=` (hardware.cpp): add with overflow protection,
clamping to `PROCESSOR_REGISTER_MAX_VALUE`. -/
def add (reg value : Nat) : Nat :=
  if !functools.is_overflow reg value then (reg + value) % 65536
  else PROCESSOR_REGISTER_MAX_VALUE

/-- `Register::operator-=` (hardware.cpp): subtract with underflow
protection, clamping to `PROCESSOR_REGISTER_MIN_VALUE`.  The in-range
`uint16_t` subtraction `reg - value` is written as its two's-complement
form `(reg + 2^16 - value) % 2^16`, which agrees with `reg - value`
whenever `value ≤ reg < 2^16`. -/
def sub (reg value : Nat) : Nat :=
  if !functools.is_underflow reg value then (reg + 65536 - value) % 65536
  else PROCESSOR_REGISTER_MIN_VALUE

end Register

/-! ## Memory (memory.cpp)

The byte buffer `MEM` is modelled as a total function `Nat → Nat` holding
byte values, and the static `stack_pointer` as a `Nat` alongside it.  The
C++ buffer has `MEMORY_SIZE = 256` bytes; the model deliberately keeps the
function total on all of `Nat` so that out-of-range accesses (which are
undefined behavior in the C++) remain expressible and detectable by
comparing indices against `MEMORY_SIZE`. -/

/-- The memory data: byte store plus the static stack pointer. -/
structure MemState where
  mem : Nat → Nat
  sp : Nat

/-- The initial memory: `Memory::stack_pointer = 0`.  (The C++ buffer from
`new uint8_t[nbytes]` is uninitialized; the model zero-fills it, and no
claim reads a byte that was not previously written.) -/
def initMem : MemState := ⟨fun _ => 0, 0⟩

namespace Memory

/-- The test performed by `Memory::validate_address` (memory.cpp): the
access is rejected (message + `exit(1)`) iff `address <
HardcodedValues::get_stack_size()`, i.e. iff the address lies in the
reserved stack region.  This is the only validation either `operator[]`
performs; there is no upper bound check. -/
def validate_address_fails (address : Nat) : Bool :=
  address < STACK_SIZE

/-- `Memory::operator[](uint8_t)` (non-const) followed by an assignment —
the word write used by STORE: after `validate_address`, the C++ stores the
16-bit value through `reinterpret_cast<uint16_t*>(MEM + address)`, a native
little-endian store of the low byte at `address` and the high byte at
`address + 1`. -/
def write_word (m : Nat → Nat) (address v : Nat) : Except ExecError (Nat → Nat) :=
  if validate_address_fails address then .error .stackRegionWrite
  else .ok (fun a =>
    if a = address then v % 256
    else if a = address + 1 then v / 256 % 256
    else m a)

/-- `Memory::operator[](uint8_t) const` — the word read: after
`validate_address`, returns `(MEM[address + 1] << BITS_IN_BYTE) |
MEM[address]`. -/
def read_word (m : Nat → Nat) (address : Nat) : Except ExecError Nat :=
  if validate_address_fails address then .error .stackRegionRead
  else .ok ((m (address + 1)) <<< BITS_IN_BYTE ||| m address)

/-- The word read performed by LOAD: `RAM` is non-const, so `RAM[addr]`
resolves to the non-const `operator[]` (whose `validate_address` uses the
writing-to-stack-region message) and the value is read through the
resulting `uint16_t&` — a native little-endian load, which on byte values
coincides with `(MEM[address + 1] << 8) | MEM[address]`. -/
def read_word_ref (m : Nat → Nat) (address : Nat) : Except ExecError Nat :=
  if validate_address_fails address then .error .stackRegionWrite
  else .ok ((m (address + 1)) <<< BITS_IN_BYTE ||| m address)

/-- `Memory::push` (memory.cpp): fails iff `stack_pointer +
STACK_POINTER_SIZE > STACK_SIZE`; otherwise stores the two bytes of the
value (each masked with `memory_size = MEMORY_SIZE - 1 = 255`)
little-endian at the stack pointer and advances it by 2. -/
def push (s : MemState) (v : Nat) : Except ExecError MemState :=
  if s.sp + STACK_POINTER_SIZE > STACK_SIZE then .error .stackOverflow
  else .ok ⟨fun a =>
      if a = s.sp then v &&& (MEMORY_SIZE - 1)
      else if a = s.sp + 1 then (v >>> BITS_IN_BYTE) &&& (MEMORY_SIZE - 1)
      else s.mem a,
    s.sp + STACK_POINTER_SIZE⟩

/-- `Memory::pop` (memory.cpp): fails iff `stack_pointer <
STACK_POINTER_SIZE`; otherwise decrements the stack pointer by 2 first and
returns the little-endian word at the new stack pointer. -/
def pop (s : MemState) : Except ExecError (Nat × MemState) :=
  if s.sp < STACK_POINTER_SIZE then .error .stackUnderflow
  else
    .ok ((s.mem (s.sp - STACK_POINTER_SIZE + 1)) <<< BITS_IN_BYTE |||
           s.mem (s.sp - STACK_POINTER_SIZE),
         ⟨s.mem, s.sp - STACK_POINTER_SIZE⟩)

end Memory

/-! ## Executor (functools::exec, software.cpp) -/

/-- The full machine state seen by `functools::exec`: the register file
(all registers default to 0), the shared `Memory RAM`, and the lines PRINT
has written to standard output. -/
structure VMState where
  regs : Fin 4 → Nat
  ram : MemState
  out : List Nat

/-- The state at program start. -/
def initState : VMState := ⟨fun _ => 0, initMem, []⟩

/-- `functools::get_register_by_id` (software.cpp): ids `0..3` name
registers `a..d`; any other id prints "Invalid register ID" and exits. -/
def getRegisterById (id : Nat) : Except ExecError (Fin 4) :=
  if h : id < 4 then .ok ⟨id, h⟩ else .error .invalidRegisterId

/-- Write one register of the register file. -/
def setReg (s : VMState) (r : Fin 4) (v : Nat) : VMState :=
  { s with regs := fun i => if i = r then v else s.regs i }

/-- `operands[i] != nullptr && operands[i]->type == REGISTER`. -/
def isRegOperand : Option Operand → Bool
  | some o => o.type = .REGISTER
  | none => false

/-- `operands[i] != nullptr && operands[i]->type == NUMERIC`. -/
def isNumOperand : Option Operand → Bool
  | some o => o.type = .NUMERIC
  | none => false

/-- The operand presence/type guard each `case` of the `switch` in
`functools::exec` places around its effect (software.cpp).  Note the guard
has no `else`: when it fails the `case` simply `break`s. -/
def validOperands (i : Instr) : Bool :=
  match i.opcode with
  | .SETv | .ADDv | .SUBv => isRegOperand i.op0 && isNumOperand i.op1
  | .SETr | .ADDr | .SUBr => isRegOperand i.op0 && isRegOperand i.op1
  | .IFNZ | .PRINT | .PUSH | .POP => isRegOperand i.op0
  | .LOAD | .STORE => isNumOperand i.op0 && isRegOperand i.op1

/-- One `switch` case of `functools::exec` for every opcode except IFNZ
(IFNZ also consumes from the line stream, so it lives in `execLines`).
When the operand guard fails the case is a silent no-op (`break`); when it
holds, the register lookups and memory operations run in source order, each
able to raise a fatal error. -/
def execInstr (i : Instr) (s : VMState) : Except ExecError VMState :=
  if !validOperands i then .ok s
  else
    match i.opcode, i.op0, i.op1 with
    | .SETv, some o0, some o1 => do
        let r ← getRegisterById o0.parsed
        .ok (setReg s r o1.parsed)
    | .SETr, some o0, some o1 => do
        let r1 ← getRegisterById o0.parsed
        let r2 ← getRegisterById o1.parsed
        .ok (setReg s r1 (s.regs r2))
    | .ADDv, some o0, some o1 => do
        let r ← getRegisterById o0.parsed
        .ok (setReg s r (Register.add (s.regs r) o1.parsed))
    | .ADDr, some o0, some o1 => do
        let r1 ← getRegisterById o0.parsed
        let r2 ← getRegisterById o1.parsed
        .ok (setReg s r1 (Register.add (s.regs r1) (s.regs r2)))
    | .SUBv, some o0, some o1 => do
        let r ← getRegisterById o0.parsed
        .ok (setReg s r (Register.sub (s.regs r) o1.parsed))
    | .SUBr, some o0, some o1 => do
        let r1 ← getRegisterById o0.parsed
        let r2 ← getRegisterById o1.parsed
        .ok (setReg s r1 (Register.sub (s.regs r1) (s.regs r2)))
    | .PRINT, some o0, _ => do
        let r ← getRegisterById o0.parsed
        .ok { s with out := s.out ++ [s.regs r] }
    | .PUSH, some o0, _ => do
        let r ← getRegisterById o0.parsed
        let ram2 ← Memory.push s.ram (s.regs r)
        .ok { s with ram := ram2 }
    | .POP, some o0, _ => do
        let r ← getRegisterById o0.parsed
        let vm ← Memory.pop s.ram
        .ok { setReg s r vm.1 with ram := vm.2 }
    | .LOAD, some o0, some o1 => do
        let r ← getRegisterById o1.parsed
        let v ← Memory.read_word_ref s.ram.mem (o0.parsed % 256)
        .ok (setReg s r v)
    | .STORE, some o0, some o1 => do
        let r ← getRegisterById o1.parsed
        let m2 ← Memory.write_word s.ram.mem (o0.parsed % 256) (s.regs r)
        .ok { s with ram := { s.ram with mem := m2 } }
    | _, _, _ => .ok s  -- unreachable: the guard matched the operand shapes

/-- The `while (getline(file, line))` loop of `functools::exec`
(software.cpp) over the program's list of lines.  The `skip` flag models
the extra `getline(file, line)` an IFNZ with a zero register performs: the
very next line of the stream is consumed unparsed and unexecuted, whatever
its content (a `getline` at end of file consumes nothing).  With
`skip = false`: empty lines are skipped by the loop itself; every other
line is parsed (parse failure is fatal) and dispatched. -/
def execLinesAux : Bool → List (List Char) → VMState → Except ExecError VMState
  | _, [], s => .ok s
  | true, _ :: rest, s => execLinesAux false rest s
  | false, line :: rest, s =>
    if line.isEmpty then execLinesAux false rest s
    else
      match parseInstruction line with
      | .error e => .error e
      | .ok instr =>
        match instr.opcode with
        | .IFNZ =>
          match instr.op0 with
          | some o0 =>
            if o0.type = .REGISTER then
              match getRegisterById o0.parsed with
              | .error e => .error e
              | .ok r =>
                if s.regs r = 0 then execLinesAux true rest s
                else execLinesAux false rest s
            else execLinesAux false rest s
          | none => execLinesAux false rest s
        | _ =>
          match execInstr instr s with
          | .error e => .error e
          | .ok s2 => execLinesAux false rest s2

/-- The executor loop from the top (no pending IFNZ skip). -/
def execLines (lines : List (List Char)) (s : VMState) : Except ExecError VMState :=
  execLinesAux false lines s

/-- Run a program from the initial state. -/
def run (prog : List (List Char)) : Except ExecError VMState :=
  execLines prog initState

/-- The values a program PRINTs, when it runs to completion. -/
def runOut (prog : List (List Char)) : Except ExecError (List Nat) :=
  (run prog).map VMState.out

/-! ## Auxiliary definitions for the claims -/

/-- `n` consecutive `Memory.push` operations (pushing the value 1). -/
def iterPush : Nat → MemState → Except ExecError MemState
  | 0, s => .ok s
  | n + 1, s => (iterPush n s).bind (fun s2 => Memory.push s2 1)

/-- A stack operation: one `push` or one `pop`. -/
inductive StackOp where
  | push (v : Nat)
  | pop

/-- Apply one stack operation (the popped value is discarded). -/
def applyStackOp (s : MemState) : StackOp → Except ExecError MemState
  | .push v => Memory.push s v
  | .pop => (Memory.pop s).map Prod.snd

/-- Apply a sequence of stack operations; the result is `ok` exactly when
every operation succeeds. -/
def runStackOps : List StackOp → MemState → Except ExecError MemState
  | [], s => .ok s
  | op :: ops, s => (applyStackOp s op).bind (fun s2 => runStackOps ops s2)

/-- The program-text name of register `r` (symbol of rank `r`). -/
def regName (r : Fin 4) : List Char :=
  REGISTERS_SYMBOLS.get ⟨r.1, r.2⟩

/-- A parsed operand never sends the executor's register lookup into its
fatal branch: if it is REGISTER-typed, its rank is in `[0, 3]` and
`get_register_by_id` succeeds on it. -/
def operandSafe : Option Operand → Prop
  | some op =>
      op.type = .REGISTER → op.parsed < 4 ∧ ∀ e, getRegisterById op.parsed ≠ .error e
  | none => True

/-- The spec's notion of a valid unsigned decimal integer token: nonempty
and consisting solely of decimal digits. -/
def isUnsignedDecimal (t : List Char) : Bool :=
  !t.isEmpty && t.all Char.isDigit

/-- The sign flag and post-sign remainder `std::stoi` works on: the token
after leading whitespace and one optional sign. -/
def stoiBody (t : List Char) : Bool × List Char :=
  splitSign (t.dropWhile isCppSpace)

/-- The digit prefix `std::stoi` converts. -/
def stoiDigits (t : List Char) : List Char :=
  (stoiBody t).2.takeWhile Char.isDigit

/-! ## Unfolding lemmas for the executor loop -/

/-- With a pending IFNZ skip, the next line is consumed unconditionally. -/
theorem execLinesAux_skip (line : List Char) (rest : List (List Char)) (s : VMState) :
    execLinesAux true (line :: rest) s = execLinesAux false rest s := rfl

/-- One unfolding of the executor loop on a nonempty line list. -/
theorem execLinesAux_cons (line : List Char) (rest : List (List Char)) (s : VMState) :
    execLinesAux false (line :: rest) s =
      (if line.isEmpty then execLinesAux false rest s
       else
        match parseInstruction line with
        | .error e => .error e
        | .ok instr =>
          match instr.opcode with
          | .IFNZ =>
            match instr.op0 with
            | some o0 =>
              if o0.type = .REGISTER then
                match getRegisterById o0.parsed with
                | .error e => .error e
                | .ok r =>
                  if s.regs r = 0 then execLinesAux true rest s
                  else execLinesAux false rest s
              else execLinesAux false rest s
            | none => execLinesAux false rest s
          | _ =>
            match execInstr instr s with
            | .error e => .error e
            | .ok s2 => execLinesAux false rest s2) := rfl

/-! ## Claim C4: saturating register addition -/

/-- C4: for every register value `x` and `u16` increment `y`,
`Register::operator+=` (via `functools::is_overflow`) sets the register to
exactly `x + y` when `x + y ≤ 65535` and clamps to `65535` otherwise;
register addition never wraps. -/
theorem c4_add_saturates (x y : Nat) (hx : x < 65536) (hy : y < 65536) :
    Register.add x y = if x + y ≤ 65535 then x + y else 65535 := by
  unfold Register.add functools.is_overflow PROCESSOR_REGISTER_MAX_VALUE
  rcases Nat.lt_or_ge (x + y) 65536 with h | h
  · rw [Nat.mod_eq_of_lt h]
    simp only [Bool.not_eq_eq_eq_not, Bool.not_true, decide_eq_false_iff_not, Nat.not_lt]
    rw [if_pos (Nat.le_add_right x y), if_pos (by omega)]
  · have hm : (x + y) % 65536 = x + y - 65536 := by omega
    rw [hm]
    have hlt : x + y - 65536 < x := by omega
    simp only [Bool.not_eq_eq_eq_not, Bool.not_true, decide_eq_false_iff_not, Nat.not_lt]
    rw [if_neg (by omega), if_neg (by omega)]

/-- Witness for C4 at a saturating input. -/
theorem c4_witness :
    Register.add 65000 1000 = if 65000 + 1000 ≤ 65535 then 65000 + 1000 else 65535 :=
  c4_add_saturates 65000 1000 (by decide) (by decide)

/-! ## Claim C5: saturating register subtraction -/

/-- C5: for every register value `x` and `u16` decrement `y`,
`Register::operator-=` (via `functools::is_underflow`) sets the register to
exactly `x - y` when `y ≤ x` and clamps to `0` otherwise; register
subtraction never goes negative or wraps. -/
theorem c5_sub_saturates (x y : Nat) (hx : x < 65536) (hy : y < 65536) :
    Register.sub x y = if y ≤ x then x - y else 0 := by
  unfold Register.sub functools.is_underflow PROCESSOR_REGISTER_MIN_VALUE
  rcases Nat.lt_or_ge x y with h | h
  · simp only [Bool.not_eq_eq_eq_not, Bool.not_true, decide_eq_false_iff_not, Nat.not_lt]
    rw [if_neg (by omega), if_neg (by omega)]
  · simp only [Bool.not_eq_eq_eq_not, Bool.not_true, decide_eq_false_iff_not, Nat.not_lt]
    rw [if_pos h, if_pos h]
    omega

/-- Witness for C5 at a clamping input. -/
theorem c5_witness :
    Register.sub 5 9 = if 9 ≤ 5 then 5 - 9 else 0 :=
  c5_sub_saturates 5 9 (by decide) (by decide)

/-! ## Claim C6: heap word round-trip, little-endian -/

/-- Splitting a 16-bit value into bytes and recombining with
`(high << 8) | low` is the identity. -/
theorem bytes_recombine (v : Nat) :
    (v / 256) <<< 8 ||| v % 256 = v := by
  rw [Nat.shiftLeft_eq]
  rw [Nat.mul_comm (v / 256) (2 ^ 8)]
  rw [← Nat.mul_add_lt_is_or (by omega : v % 256 < 2 ^ 8) (v / 256)]
  omega

/-- C6: for every heap address `addr ∈ [16, 255)` and value `v ≤ 65535`,
writing the word at `addr` succeeds, stores the low byte at `addr` and the
high byte at `addr + 1` (little-endian), and reading the word back at
`addr` returns exactly `v`. -/
theorem c6_word_roundtrip (m : Nat → Nat) (addr v : Nat)
    (h1 : 16 ≤ addr) (h2 : addr < 255) (h3 : v ≤ 65535) :
    ∃ m2, Memory.write_word m addr v = .ok m2 ∧
      m2 addr = v % 256 ∧ m2 (addr + 1) = v / 256 ∧
      Memory.read_word m2 addr = .ok v := by
  unfold Memory.write_word Memory.read_word Memory.validate_address_fails STACK_SIZE
  rw [if_neg (by simp; omega)]
  refine ⟨_, rfl, ?_, ?_, ?_⟩
  · rw [if_pos rfl]
  · rw [if_neg (by omega), if_pos rfl]
    omega
  · rw [if_neg (by simp; omega)]
    rw [if_neg (by omega), if_pos rfl, if_pos rfl]
    have : v / 256 % 256 = v / 256 := Nat.mod_eq_of_lt (by omega)
    rw [this]
    unfold BITS_IN_BYTE
    rw [bytes_recombine v]

/-- Witness for C6 at address 20 and value 513. -/
theorem c6_witness :
    ∃ m2, Memory.write_word (fun _ => 0) 20 513 = .ok m2 ∧
      m2 20 = 513 % 256 ∧ m2 21 = 513 / 256 ∧
      Memory.read_word m2 20 = .ok 513 :=
  c6_word_roundtrip (fun _ => 0) 20 513 (by decide) (by decide) (by decide)

/-! ## Claim C7: stack overflow/underflow conditions -/

/-- C7: `Memory::push` fails with the stack-overflow error exactly when
`stack_pointer + 2 > 16` and succeeds otherwise; `Memory::pop` fails with
the stack-underflow error exactly when `stack_pointer < 2` and succeeds
otherwise; and from the empty stack, 8 consecutive pushes succeed (leaving
the stack pointer at 16) while the 9th push fails with stack overflow. -/
theorem c7_stack_bounds :
    (∀ (s : MemState) (v : Nat),
        Memory.push s v = .error .stackOverflow ↔ 16 < s.sp + 2) ∧
    (∀ (s : MemState) (v : Nat),
        s.sp + 2 ≤ 16 → ∃ s2, Memory.push s v = .ok s2) ∧
    (∀ s : MemState, Memory.pop s = .error .stackUnderflow ↔ s.sp < 2) ∧
    (∀ s : MemState, 2 ≤ s.sp → ∃ r, Memory.pop s = .ok r) ∧
    (iterPush 8 initMem).map MemState.sp = .ok 16 ∧
    iterPush 9 initMem = .error .stackOverflow := by
  refine ⟨?_, ?_, ?_, ?_, by rfl, by rfl⟩
  · intro s v
    unfold Memory.push STACK_POINTER_SIZE STACK_SIZE
    constructor
    · intro h
      by_contra hc
      rw [if_neg (by omega)] at h
      exact Except.noConfusion h
    · intro h
      rw [if_pos (by omega)]
  · intro s v h
    unfold Memory.push STACK_POINTER_SIZE STACK_SIZE
    rw [if_neg (by omega)]
    exact ⟨_, rfl⟩
  · intro s
    unfold Memory.pop STACK_POINTER_SIZE
    constructor
    · intro h
      by_contra hc
      rw [if_neg (by omega)] at h
      exact Except.noConfusion h
    · intro h
      rw [if_pos (by omega)]
  · intro s h
    unfold Memory.pop STACK_POINTER_SIZE
    rw [if_neg (by omega)]
    exact ⟨_, rfl⟩

/-- Witness for C7: one push from the empty stack succeeds. -/
theorem c7_witness : ∃ s2, Memory.push initMem 5 = .ok s2 :=
  c7_stack_bounds.2.1 initMem 5 (by decide)

/-! ## Claim C8: stack-pointer invariant -/

/-- The stack-pointer invariant: within `[0, 16]` and even. -/
def spInvariant (s : MemState) : Prop := s.sp ≤ 16 ∧ s.sp % 2 = 0

/-- A successful sequence of stack operations preserves the stack-pointer
invariant (auxiliary induction for C8). -/
theorem runStackOps_inv (ops : List StackOp) (s s2 : MemState)
    (hs : spInvariant s) (h : runStackOps ops s = .ok s2) : spInvariant s2 := by
  induction ops generalizing s with
  | nil =>
    unfold runStackOps at h
    cases h
    exact hs
  | cons op ops ih =>
    unfold runStackOps at h
    cases hop : applyStackOp s op with
    | error e => rw [hop] at h; exact Except.noConfusion h
    | ok s1 =>
      rw [hop] at h
      refine ih s1 ?_ h
      obtain ⟨hs1, hs2⟩ := hs
      cases op with
      | push v =>
        simp only [applyStackOp, Memory.push, STACK_POINTER_SIZE, STACK_SIZE] at hop
        split at hop
        · exact Except.noConfusion hop
        · cases hop
          refine ⟨?_, ?_⟩ <;> (try dsimp only) <;> omega
      | pop =>
        simp only [applyStackOp] at hop
        unfold Memory.pop STACK_POINTER_SIZE at hop
        by_cases hc : s.sp < 2
        · rw [if_pos hc] at hop
          simp only [Except.map] at hop
          exact Except.noConfusion hop
        · rw [if_neg hc] at hop
          simp only [Except.map] at hop
          cases hop
          refine ⟨?_, ?_⟩ <;> (try dsimp only) <;> omega

/-- C8: every push and every pop preserves the stack-pointer invariant, and
in every state reachable from the initial memory (`stack_pointer = 0`) by a
successful sequence of pushes and pops, the stack pointer lies in `[0, 16]`
and is even. -/
theorem c8_sp_invariant :
    (∀ (s s2 : MemState) (v : Nat), spInvariant s → Memory.push s v = .ok s2 →
        spInvariant s2) ∧
    (∀ (s : MemState) (r : Nat × MemState), spInvariant s → Memory.pop s = .ok r →
        spInvariant r.2) ∧
    (∀ (ops : List StackOp) (s2 : MemState), runStackOps ops initMem = .ok s2 →
        s2.sp ≤ 16 ∧ s2.sp % 2 = 0) := by
  refine ⟨?_, ?_, ?_⟩
  · intro s s2 v hs h
    obtain ⟨hs1, hs2⟩ := hs
    unfold Memory.push STACK_POINTER_SIZE STACK_SIZE at h
    split at h
    · exact Except.noConfusion h
    · cases h
      refine ⟨?_, ?_⟩ <;> (try dsimp only) <;> omega
  · intro s r hs h
    obtain ⟨hs1, hs2⟩ := hs
    unfold Memory.pop STACK_POINTER_SIZE at h
    split at h
    · exact Except.noConfusion h
    · cases h
      refine ⟨?_, ?_⟩ <;> (try dsimp only) <;> omega
  · intro ops s2 h
    exact runStackOps_inv ops initMem s2 ⟨by decide, by decide⟩ h

/-- Witness for C8 on a concrete push-pop sequence. -/
theorem c8_witness : initMem.sp ≤ 16 ∧ initMem.sp % 2 = 0 :=
  c8_sp_invariant.2.2 [] initMem rfl

/-! ## Claim C2: word access at address 255 -/

/-- C2 names a bug in the code: `Memory::validate_address` rejects only
addresses below `STACK_SIZE`, so a word access at address 255 is NOT
rejected — it passes validation, and both the read and the write then touch
byte index `255 + 1 = 256 = MEMORY_SIZE`, one past the end of the
256-byte buffer (undefined behavior in the C++), instead of raising the
boundary error the claim requires. -/
theorem c2_address255_not_bound_checked :
    Memory.validate_address_fails 255 = false ∧
    255 + 1 = MEMORY_SIZE ∧
    (∀ m : Nat → Nat, Memory.read_word m 255 = .ok ((m MEMORY_SIZE) <<< 8 ||| m 255)) ∧
    (∀ (m : Nat → Nat) (v : Nat), ∃ m2,
        Memory.write_word m 255 v = .ok m2 ∧ m2 MEMORY_SIZE = v / 256 % 256) := by
  refine ⟨by decide, by decide, ?_, ?_⟩
  · intro m
    unfold Memory.read_word BITS_IN_BYTE MEMORY_SIZE
    rw [if_neg (by decide)]
  · intro m v
    unfold Memory.write_word MEMORY_SIZE
    rw [if_neg (by decide)]
    exact ⟨_, rfl, by rw [if_neg (by decide), if_pos rfl]⟩

/-! ## Claim C10: parsed register operands are always in range -/

/-- Any REGISTER-typed operand produced by `classifyToken` carries a rank
below 4, on which `get_register_by_id` cannot fail (auxiliary for C10). -/
theorem classifyToken_register_safe (t : List Char) (op : Operand)
    (h : classifyToken t = .ok op) : operandSafe (some op) := by
  intro hreg
  unfold classifyToken at h
  by_cases hmem : t ∈ REGISTERS_SYMBOLS
  · rw [if_pos hmem] at h
    cases h
    have h4 : REGISTERS_SYMBOLS.indexOf t < 4 := by
      simp only [REGISTERS_SYMBOLS, List.mem_cons, List.not_mem_nil, or_false] at hmem
      rcases hmem with h | h | h | h <;> subst h <;> decide
    refine ⟨h4, ?_⟩
    intro e
    unfold getRegisterById
    rw [dif_pos h4]
    exact fun hc => Except.noConfusion hc
  · rw [if_neg hmem] at h
    cases hstoi : cppStoi t with
    | error e =>
      rw [hstoi] at h
      cases e <;> simp at h
    | ok i =>
      rw [hstoi] at h
      cases h
      exact absurd hreg (by simp)

/-- C10: every operand of every successfully parsed instruction is safe:
if it is REGISTER-typed its rank is in `[0, 3]`, and the executor's
`get_register_by_id` never reaches its fatal invalid-register-ID branch on
it. -/
theorem c10_register_ids_in_range (raw : List Char) (i : Instr)
    (h : parseInstruction raw = .ok i) :
    operandSafe i.op0 ∧ operandSafe i.op1 := by
  unfold parseInstruction at h
  cases hsplit : functools.split raw ' ' with
  | nil => simp only [hsplit] at h; exact Except.noConfusion h
  | cons opTok rest =>
    simp only [hsplit] at h
    cases hop : lookupOpcode opTok with
    | none => simp only [hop] at h; exact Except.noConfusion h
    | some oc =>
      simp only [hop] at h
      cases rest with
      | nil =>
        cases h
        exact ⟨trivial, trivial⟩
      | cons t1 rest1 =>
        cases hc1 : classifyToken t1 with
        | error e => simp only [hc1] at h; exact Except.noConfusion h
        | ok o0 =>
          simp only [hc1] at h
          cases rest1 with
          | nil =>
            cases h
            exact ⟨classifyToken_register_safe t1 o0 hc1, trivial⟩
          | cons t2 rest2 =>
            cases hc2 : classifyToken t2 with
            | error e => simp only [hc2] at h; exact Except.noConfusion h
            | ok o1 =>
              simp only [hc2] at h
              cases h
              exact ⟨classifyToken_register_safe t1 o0 hc1,
                     classifyToken_register_safe t2 o1 hc2⟩

/-- Witness for C10 on a concrete two-register instruction. -/
theorem c10_witness :
    operandSafe (Instr.op0 ⟨.ADDr, some ⟨.REGISTER, 0⟩, some ⟨.REGISTER, 1⟩⟩) ∧
    operandSafe (Instr.op1 ⟨.ADDr, some ⟨.REGISTER, 0⟩, some ⟨.REGISTER, 1⟩⟩) :=
  c10_register_ids_in_range (str "ADDr a b") ⟨.ADDr, some ⟨.REGISTER, 0⟩, some ⟨.REGISTER, 1⟩⟩
    (by decide)

/-! ## Claim C1: operand validation failures -/

/-- C1 counterexample: the line `SETv a` is missing its second operand (the
claim says this must halt with a fatal "nullptr operand" error and execute
no further lines), yet its operand guard simply fails and the executor runs
the remaining lines: `SETv b 7` takes effect and `PRINT b` outputs 7, the
program ending without any error. -/
theorem c1_counterexample :
    parseInstruction (str "SETv a") = .ok ⟨.SETv, some ⟨.REGISTER, 0⟩, none⟩ ∧
    validOperands ⟨.SETv, some ⟨.REGISTER, 0⟩, none⟩ = false ∧
    runOut [str "SETv a", str "SETv b 7", str "PRINT b"] = .ok [7] := by
  refine ⟨by decide, by decide, by decide⟩

/-- C1 (amended): when a line parses into an instruction whose operand
presence/type guard fails, `functools::exec` silently skips that
instruction — no error is raised, the machine state is untouched, and
execution continues with the remaining lines exactly as if the line were
absent. -/
theorem c1_invalid_operands_silently_skipped (line : List Char)
    (rest : List (List Char)) (s : VMState) (i : Instr)
    (hp : parseInstruction line = .ok i) (hv : validOperands i = false) :
    execLines (line :: rest) s = execLines rest s := by
  have hne : line.isEmpty = false := by
    cases line with
    | nil =>
      exfalso
      simp [parseInstruction, functools.split] at hp
    | cons c cs => rfl
  unfold execLines
  rw [execLinesAux_cons]
  simp only [hne, Bool.false_eq_true, if_false]
  simp only [hp]
  obtain ⟨oc, o0, o1⟩ := i
  cases oc
  case IFNZ =>
    cases o0 with
    | none => rfl
    | some op =>
      obtain ⟨ty, pv⟩ := op
      cases ty with
      | NUMERIC => simp
      | REGISTER =>
        exfalso
        simp [validOperands, isRegOperand] at hv
  all_goals
    simp only [execInstr, hv, Bool.not_false, if_true]

/-- Witness for C1 on the counterexample instruction. -/
theorem c1_witness :
    execLines (str "SETv a" :: [str "PRINT b"]) initState = execLines [str "PRINT b"] initState :=
  c1_invalid_operands_silently_skipped (str "SETv a") [str "PRINT b"] initState
    ⟨.SETv, some ⟨.REGISTER, 0⟩, none⟩ (by decide) (by decide)

/-! ## Claim C9: IFNZ skips exactly one line -/

/-- Parsing `IFNZ <register r>` yields the IFNZ opcode with a single
REGISTER operand of rank `r` (auxiliary for C9). -/
theorem parse_ifnz (r : Fin 4) :
    parseInstruction (str "IFNZ " ++ regName r) =
      .ok ⟨.IFNZ, some ⟨.REGISTER, r.1⟩, none⟩ := by
  fin_cases r <;> decide

/-- C9: an IFNZ instruction on a register holding 0 consumes and discards
exactly the one following program line — whatever its content, even blank
or invalid — while an IFNZ on a nonzero register consumes nothing; and the
end-to-end program `SETv a 0 / IFNZ a / SETv b 1 / PRINT b` never executes
`SETv b 1` and outputs 0. -/
theorem c9_ifnz_skips_one_line :
    (∀ (r : Fin 4) (skipped : List Char) (rest : List (List Char)) (s : VMState),
        s.regs r = 0 →
        execLines ((str "IFNZ " ++ regName r) :: skipped :: rest) s = execLines rest s) ∧
    (∀ (r : Fin 4) (rest : List (List Char)) (s : VMState),
        s.regs r ≠ 0 →
        execLines ((str "IFNZ " ++ regName r) :: rest) s = execLines rest s) ∧
    runOut [str "SETv a 0", str "IFNZ a", str "SETv b 1", str "PRINT b"] = .ok [0] := by
  have hne : ∀ r : Fin 4, (str "IFNZ " ++ regName r).isEmpty = false := by
    intro r; fin_cases r <;> decide
  have hreg : ∀ r : Fin 4, getRegisterById r.1 = .ok r := by
    intro r
    unfold getRegisterById
    rw [dif_pos r.2]
  refine ⟨?_, ?_, by decide⟩
  · intro r skipped rest s h
    unfold execLines
    rw [execLinesAux_cons]
    simp only [hne r, Bool.false_eq_true, if_false]
    simp only [parse_ifnz r]
    simp only [hreg r]
    simp only [h, if_pos]
    exact execLinesAux_skip skipped rest s
  · intro r rest s h
    unfold execLines
    rw [execLinesAux_cons]
    simp only [hne r, Bool.false_eq_true, if_false]
    simp only [parse_ifnz r]
    simp only [hreg r]
    simp only [h, if_neg]
    simp

/-- Witness for C9: a zero register makes IFNZ discard the next line. -/
theorem c9_witness :
    execLines ((str "IFNZ " ++ regName 0) :: str "SETv b 1" :: []) initState =
      execLines [] initState :=
  c9_ifnz_skips_one_line.1 0 (str "SETv b 1") [] initState rfl

/-! ## Claim C3: malformed operand tokens -/

/-- C3 counterexample: the token `12x` matches no register symbol and is
not a valid unsigned decimal integer, yet parsing it is NOT a fatal error:
`stoi` converts its digit prefix, the operand parses as the numeric value
12, and a whole program using it runs to completion (printing 12).  The
token `-5` behaves likewise, wrapping to 65531 under the `uint16_t` cast. -/
theorem c3_counterexample :
    (str "12x" ∉ REGISTERS_SYMBOLS ∧ isUnsignedDecimal (str "12x") = false ∧
      classifyToken (str "12x") = .ok ⟨.NUMERIC, 12⟩) ∧
    (str "-5" ∉ REGISTERS_SYMBOLS ∧ isUnsignedDecimal (str "-5") = false ∧
      classifyToken (str "-5") = .ok ⟨.NUMERIC, 65531⟩) ∧
    runOut [str "SETv a 12x", str "PRINT a"] = .ok [12] := by
  exact ⟨⟨by decide, by decide, by decide⟩, ⟨by decide, by decide, by decide⟩, by decide⟩

/-- C3 (amended): for a token that matches no register symbol, parsing is a
fatal error precisely when `std::stoi` rejects it — that is, when the token
has no decimal digit right after its optional whitespace-and-sign prefix,
or when its digit prefix encodes a magnitude outside the C++ `int` range
(above `2^31 - 1` for unsigned or `+`-signed tokens, above `2^31` for
`-`-signed tokens).  Tokens with an in-range digit prefix — including
negative tokens and tokens with trailing garbage — parse as operands
without any error. -/
theorem c3_nonregister_token_fatal_iff (t : List Char) (h : t ∉ REGISTERS_SYMBOLS) :
    (∃ e, classifyToken t = .error e) ↔
      (stoiDigits t = [] ∨
        2147483647 + (if (stoiBody t).1 then 1 else 0) < digitsToNat (stoiDigits t)) := by
  unfold classifyToken
  rw [if_neg h]
  unfold cppStoi stoiDigits stoiBody
  rcases hsb : splitSign (t.dropWhile isCppSpace) with ⟨sgn, body2⟩
  simp only [hsb]
  by_cases hds : (body2.takeWhile Char.isDigit).isEmpty
  · rw [if_pos hds]
    rw [List.isEmpty_iff] at hds
    simp [hds]
  · rw [if_neg hds]
    rw [List.isEmpty_iff] at hds
    cases sgn with
    | false =>
      simp only [if_false, Bool.false_eq_true]
      split_ifs with hov
      · simp only [Bool.or_eq_true, decide_eq_true_eq] at hov
        constructor
        · intro _
          right
          rcases hov with hneg | hbig
          · exfalso; omega
          · omega
        · intro _; exact ⟨.stoiOutOfRange, rfl⟩
      · simp only [Bool.or_eq_true, decide_eq_true_eq, not_or, not_lt] at hov
        constructor
        · rintro ⟨e, he⟩; exact he.elim
        · rintro (hnil | hbig)
          · exact absurd hnil hds
          · exfalso; omega
    | true =>
      simp only [if_true]
      split_ifs with hov
      · simp only [Bool.or_eq_true, decide_eq_true_eq] at hov
        constructor
        · intro _
          right
          rcases hov with hneg | hbig
          · omega
          · exfalso; omega
        · intro _; exact ⟨.stoiOutOfRange, rfl⟩
      · simp only [Bool.or_eq_true, decide_eq_true_eq, not_or, not_lt] at hov
        constructor
        · rintro ⟨e, he⟩; exact he.elim
        · rintro (hnil | hbig)
          · exact absurd hnil hds
          · exfalso; omega

/-- Witness for C3 (amended) at the non-register token `xy`, which has no
digit prefix and is therefore fatal. -/
theorem c3_witness :
    (∃ e, classifyToken (str "xy") = .error e) ↔
      (stoiDigits (str "xy") = [] ∨
        2147483647 + (if (stoiBody (str "xy")).1 then 1 else 0) <
          digitsToNat (stoiDigits (str "xy"))) :=
  c3_nonregister_token_fatal_iff (str "xy") (by decide)

end UltraProc
